import Mathlib

/-!
Shallow embedding of the todo-timer core (src/app/stateful_list.rs,
src/app/app.rs, src/main.rs).  Rust `Vec` becomes `List`, `usize` becomes
`Nat` (with fallible subtraction and indexing made explicit through
`Option`, since out-of-range `usize` arithmetic and `Vec` indexing panic),
`i64` durations become `Int`, `DateTime<Local>` becomes an abstract `Nat`
timestamp, and panicking operations return `none`.  The `tui::ListState`
stored in a `StatefulList` is modelled by its only semantically relevant
content, the optional selected index.
-/

/-- Direction of a reorder command (stateful_list.rs `Direction`). -/
inductive ListDirection where
  | up
  | down
deriving DecidableEq

/-- StatefulList from stateful_list.rs: a vector of items plus a
`ListState`, of which only the optional selected index matters. -/
structure StatefulList (α : Type) where
  selected : Option Nat
  items : List α
deriving DecidableEq

/-- StatefulList::new — empty items, default (unselected) state. -/
def StatefulList.new : StatefulList α := ⟨none, []⟩

/-- Vec::swap, which panics when either index is out of bounds; the panic
is modelled by `none`. -/
def vecSwap (xs : List α) (i j : Nat) : Option (List α) :=
  if h : i < xs.length ∧ j < xs.length then
    some ((xs.set i (xs.get ⟨j, h.2⟩)).set j (xs.get ⟨i, h.1⟩))
  else none

/-- StatefulList::next. -/
def StatefulList.next (l : StatefulList α) : StatefulList α :=
  if l.items.isEmpty then l
  else
    let i := match l.selected with
      | some i => if i ≥ l.items.length - 1 then 0 else i + 1
      | none => 0
    { l with selected := some i }

/-- StatefulList::previous. -/
def StatefulList.previous (l : StatefulList α) : StatefulList α :=
  if l.items.isEmpty then l
  else
    let i := match l.selected with
      | some i => if i = 0 then l.items.length - 1 else i - 1
      | none => 0
    { l with selected := some i }

/-- StatefulList::add. -/
def StatefulList.add (l : StatefulList α) (item : α) : StatefulList α :=
  { l with items := l.items ++ [item] }

/-- StatefulList::move_selected_item.  The Rust code computes
`self.items.len() - 1` on a `usize`, which panics (debug underflow, or the
subsequent out-of-range `swap` in release) when `items` is empty, so that
case is `none`; `Vec::swap` itself is `vecSwap`. -/
def StatefulList.move_selected_item (l : StatefulList α) (direction : ListDirection) :
    Option (StatefulList α) :=
  match l.selected with
  | none => some l
  | some index =>
    match direction with
    | .down =>
      (if index = 0 then
        (if l.items.length = 0 then none else some (l.items.length - 1))
       else some (index - 1)).bind fun target =>
      (vecSwap l.items index target).map fun items =>
        StatefulList.previous { l with items := items }
    | .up =>
      (if l.items.length = 0 then none
       else some (if index = l.items.length - 1 then 0 else index + 1)).bind fun target =>
      (vecSwap l.items index target).map fun items =>
        StatefulList.next { l with items := items }

/-- Functional rendering of an in-place update of one vector slot
(`get_mut` followed by assignment): out-of-range indices leave the list
unchanged. -/
def modifyAt : List α → Nat → (α → α) → List α
  | [], _, _ => []
  | x :: xs, 0, f => f x :: xs
  | x :: xs, i + 1, f => x :: modifyAt xs i f

/-- Item from app.rs. -/
structure Item where
  title : String
  desc : String
  start_at : Option Nat
  end_at : Option Nat
  duration : Int
  paused : Bool
deriving DecidableEq

/-- Item::default (derived `Default`). -/
def Item.default : Item := ⟨"", "", none, none, 0, false⟩

/-- Item::started. -/
def Item.started (it : Item) : Bool := it.start_at.isSome

/-- Item::done. -/
def Item.done (it : Item) : Bool := it.end_at.isSome

/-- GroupList from app.rs. -/
structure GroupList where
  name : String
  list : StatefulList Item
deriving DecidableEq

/-- Input (the dialog's focused field) from app.rs. -/
inductive Input where
  | titel
  | desc
deriving DecidableEq

/-- DialogState from app.rs. -/
inductive DialogState where
  | new
  | edit
  | hide
deriving DecidableEq

/-- Dialog from app.rs. -/
structure Dialog where
  input : Item
  selected_input : Input
  state : DialogState
deriving DecidableEq

/-- Dialog::default. -/
def Dialog.default : Dialog := ⟨Item.default, .titel, .hide⟩

/-- Dialog::close_dialog — resets state, input and focused field. -/
def Dialog.close_dialog (_d : Dialog) : Dialog :=
  ⟨Item.default, .titel, .hide⟩

/-- Dialog::displayed. -/
def Dialog.displayed (d : Dialog) : Bool :=
  match d.state with
  | .hide => false
  | _ => true

/-- Dialog::display. -/
def Dialog.display (d : Dialog) (state : DialogState) : Dialog :=
  { d with state := state }

/-- Dialog::editing. -/
def Dialog.editing (d : Dialog) : Bool :=
  match d.state with
  | .edit => true
  | _ => false

/-- Key codes, restricted to those the dispatch tables distinguish; every
other crossterm key falls into `other`. -/
inductive KeyCode where
  | char (c : Char)
  | esc
  | tab
  | backspace
  | enter
  | up
  | down
  | left
  | right
  | other
deriving DecidableEq

/-- Key modifier sets, restricted to the exact values matched by the
dispatch tables; every other crossterm modifier set falls into `nomod`
or `shift`. -/
inductive KeyModifiers where
  | ctrl
  | alt
  | shift
  | nomod
deriving DecidableEq

/-- Dialog::process_input — the Rust match is on `(key, modi)` but every
arm's modifier pattern is a wildcard. -/
def Dialog.process_input (d : Dialog) (key : KeyCode) (_modi : KeyModifiers) : Dialog :=
  match key with
  | .esc => d.close_dialog
  | .tab =>
    match d.selected_input with
    | .titel => { d with selected_input := .desc }
    | .desc => { d with selected_input := .titel }
  | .char x =>
    match d.selected_input with
    | .titel => { d with input := { d.input with title := d.input.title.push x } }
    | .desc => { d with input := { d.input with desc := d.input.desc.push x } }
  | .backspace =>
    match d.selected_input with
    | .titel => { d with input := { d.input with title := d.input.title.dropRight 1 } }
    | .desc => { d with input := { d.input with desc := d.input.desc.dropRight 1 } }
  | _ => d

/-- App from app.rs (the Session): name, group list, optional drilled-into
group index, dialog. -/
structure App where
  name : String
  group_list : StatefulList GroupList
  active_list : Option Nat
  dialog : Dialog
deriving DecidableEq

/-- App::new. -/
def App.new (name : String) : App :=
  ⟨name, StatefulList.new, none, Dialog.default⟩

/-- App::add_time: sweep all items of all groups, adding the tick's
milliseconds to every running one.  `delta` is the tick duration already
converted to whole milliseconds (the Rust code converts through
`chrono::Duration::from_std` and `num_milliseconds`). -/
def App.add_time (a : App) (delta : Int) : App :=
  { a with
    group_list := { a.group_list with
      items := a.group_list.items.map (fun list =>
        { list with
          list := { list.list with
            items := list.list.items.map (fun item =>
              if item.start_at.isSome && item.end_at.isNone && !item.paused then
                { item with duration := item.duration + delta }
              else item) } }) } }

/-- App::selected_item. -/
def App.selected_item (a : App) : Option (Nat × Nat) :=
  match a.active_list with
  | none => none
  | some list_index =>
    match a.group_list.items.get? list_index with
    | none => none
    | some list =>
      match list.list.selected with
      | none => none
      | some index =>
        if (list.list.items.get? index).isSome then some (list_index, index) else none

/-- App::get_item (read access). -/
def App.get_item (a : App) (list_index index : Nat) : Option Item :=
  match a.group_list.items.get? list_index with
  | some list => list.list.items.get? index
  | none => none

/-- App::get_selected_item (read access). -/
def App.get_selected_item (a : App) : Option Item :=
  match a.selected_item with
  | some (list_index, index) => a.get_item list_index index
  | none => none

/-- Write-back of a mutation through App::get_selected_item's `&mut Item`:
apply `f` at the selected position, or do nothing when there is none. -/
def App.update_selected_item (a : App) (f : Item → Item) : App :=
  match a.selected_item with
  | none => a
  | some (list_index, index) =>
    { a with
      group_list := { a.group_list with
        items := modifyAt a.group_list.items list_index (fun gl =>
          { gl with
            list := { gl.list with
              items := modifyAt gl.list.items index f } }) } }

/-- Write-back of a mutation through
`self.group_list.items.get_mut(index).unwrap().list`. -/
def App.set_list (a : App) (index : Nat) (l : StatefulList Item) : App :=
  { a with
    group_list := { a.group_list with
      items := modifyAt a.group_list.items index (fun gl => { gl with list := l }) } }

/-- Assignment `self.dialog.input = item.clone()` used by the edit
command. -/
def Dialog.set_input (d : Dialog) (item : Item) : Dialog :=
  { d with input := item }

/-- Body of the `else` branch of App::event: the command dispatch table,
one arm per `(key, modifiers)` pattern, in source order.  `none` models a
panic: the `.unwrap()` calls on `group_list.items.get_mut(..)`, the direct
indexing `self.group_list.items[pos]`, the potentially out-of-range
`Vec::remove`, and the panics inside `move_selected_item`.  `now` stands
for `Local::now()`. -/
def App.command (a : App) (key : KeyCode) (modi : KeyModifiers) (now : Nat) : Option App :=
  match key, modi with
  | .char 'n', .ctrl =>
    some (if a.dialog.displayed then a else { a with dialog := a.dialog.display .new })
  | .char 'e', .ctrl =>
    some (if a.dialog.displayed then a
      else match a.get_selected_item with
        | some item => { a with dialog := (a.dialog.display .edit).set_input item }
        | none => a)
  | .char 'd', .ctrl =>
    (match a.active_list with
     | some index =>
       match a.group_list.items.get? index with
       | none => none
       | some gl =>
         match gl.list.selected with
         | some i =>
           if i < gl.list.items.length then
             some (a.set_list index { gl.list with items := gl.list.items.eraseIdx i })
           else none
         | none => some a
     | none =>
       match a.group_list.selected with
       | some index =>
         if index < a.group_list.items.length then
           some { a with
             group_list := ⟨none, a.group_list.items.eraseIdx index⟩ }
         else none
       | none => some a)
  | .char 's', .alt =>
    some (a.update_selected_item (fun item =>
      if item.start_at.isSome then
        { item with start_at := none, end_at := none, duration := 0 }
      else
        { item with start_at := some now }))
  | .char 'd', .alt =>
    some (a.update_selected_item (fun item =>
      if item.end_at.isSome then { item with end_at := none }
      else { item with end_at := some now }))
  | .char 'p', .alt =>
    some (a.update_selected_item (fun item => { item with paused := !item.paused }))
  | .enter, _ =>
    if a.dialog.displayed then
      if a.dialog.editing then
        some { a.update_selected_item (fun item =>
            { item with title := a.dialog.input.title, desc := a.dialog.input.desc }) with
          dialog := a.dialog.close_dialog }
      else
        match a.active_list with
        | some index =>
          match a.group_list.items.get? index with
          | none => none
          | some gl =>
            some { a.set_list index (gl.list.add a.dialog.input) with
              dialog := a.dialog.close_dialog }
        | none =>
          some { { a with
              group_list := a.group_list.add ⟨a.dialog.input.title, StatefulList.new⟩ } with
            dialog := a.dialog.close_dialog }
    else some { a with dialog := a.dialog.close_dialog }
  | .up, .ctrl =>
    (match a.active_list with
     | some index =>
       match a.group_list.items.get? index with
       | none => none
       | some gl => (gl.list.move_selected_item .down).map (fun l => a.set_list index l)
     | none =>
       (a.group_list.move_selected_item .down).map (fun g => { a with group_list := g }))
  | .down, .ctrl =>
    (match a.active_list with
     | some index =>
       match a.group_list.items.get? index with
       | none => none
       | some gl => (gl.list.move_selected_item .up).map (fun l => a.set_list index l)
     | none =>
       (a.group_list.move_selected_item .up).map (fun g => { a with group_list := g }))
  | .up, _ =>
    (match a.active_list with
     | some pos =>
       match a.group_list.items.get? pos with
       | none => none
       | some gl => some (a.set_list pos gl.list.previous)
     | none => some { a with group_list := a.group_list.previous })
  | .down, _ =>
    (match a.active_list with
     | some pos =>
       match a.group_list.items.get? pos with
       | none => none
       | some gl => some (a.set_list pos gl.list.next)
     | none => some { a with group_list := a.group_list.next })
  | .right, _ =>
    some (if a.active_list.isNone then { a with active_list := a.group_list.selected } else a)
  | .left, _ =>
    (match a.active_list with
     | some index =>
       match a.group_list.items.get? index with
       | none => none
       | some gl =>
         some { a.set_list index { gl.list with selected := none } with active_list := none }
     | none => some a)
  | _, _ => some a

/-- App::event: keys other than Enter go to the dialog while it is
displayed; everything else goes through the command dispatch table. -/
def App.event (a : App) (key : KeyCode) (modi : KeyModifiers) (now : Nat) : Option App :=
  if a.dialog.displayed ∧ key ≠ KeyCode.enter then
    some { a with dialog := a.dialog.process_input key modi }
  else
    a.command key modi now

/-- Run a sequence of key events through App::event, propagating a panic
as `none`. -/
def App.runEvents (a : App) : List (KeyCode × KeyModifiers × Nat) → Option App
  | [] => some a
  | (key, modi, now) :: rest => (a.event key modi now).bind (fun a' => a'.runEvents rest)

/-- Outcome of program start-up: either an App or a panic. -/
inductive LoadResult where
  | ok (a : App)
  | panic
deriving DecidableEq

/-- Start-up load from main.rs: `fs::read_to_string` is abstracted to an
`Option String` (its `Err` case is `none`), and `toml::from_str` to a
`parse` function whose failure is `none`.  A read failure falls back to
`App::new`; a parse failure hits `.unwrap()` and panics. -/
def loadApp (readResult : Option String) (parse : String → Option App) : LoadResult :=
  match readResult with
  | .some db =>
    match parse db with
    | some a => .ok a
    | none => .panic
  | .none => .ok (App.new "Todo-Timer")

/-- Session states reachable from a fresh App through non-panicking key
events and ticks, as driven by the main event loop. -/
inductive Reachable : App → Prop where
  | init (name : String) : Reachable (App.new name)
  | key {a a' : App} {k : KeyCode} {m : KeyModifiers} {now : Nat} :
      Reachable a → a.event k m now = some a' → Reachable a'
  | tick {a : App} (delta : Int) : Reachable a → Reachable (a.add_time delta)

/-- Invariant on the dialog of a session: while hidden the scratch buffer
is the full default dialog, and while in CreatingNew mode the scratch
item's timing fields are still at their defaults (only title and
description may differ). -/
def dialogInv (a : App) : Prop :=
  (a.dialog.state = .hide → a.dialog = Dialog.default) ∧
  (a.dialog.state = .new → a.dialog.input.start_at = none ∧
    a.dialog.input.end_at = none ∧ a.dialog.input.duration = 0 ∧
    a.dialog.input.paused = false)

/-- Two-element sample list used to instantiate list-level theorems. -/
def sampleList : StatefulList Nat := ⟨some 0, [1, 2]⟩

/-- Key sequence that drives a fresh App to an item list with a dangling
selection: create a group, select it, drill in, create an item, select
it, delete it. -/
def deleteLastItemEvents : List (KeyCode × KeyModifiers × Nat) :=
  [(.char 'n', .ctrl, 0), (.enter, .nomod, 0), (.down, .nomod, 0), (.right, .nomod, 0),
   (.char 'n', .ctrl, 0), (.enter, .nomod, 0), (.down, .nomod, 0), (.char 'd', .ctrl, 0)]

/-- Group with one default item, selected. -/
def sampleDrilledGroup : GroupList := ⟨"", ⟨some 0, [Item.default]⟩⟩

/-- Session drilled into group 0 whose single item is selected. -/
def sampleDrilledApp : App :=
  ⟨"Todo-Timer", ⟨some 0, [sampleDrilledGroup]⟩, some 0, Dialog.default⟩

/-- Running sample item: started, not ended, not paused. -/
def sampleRunningItem : Item := ⟨"a", "", some 5, none, 7, false⟩

/-- Idle sample item: never started. -/
def sampleIdleItem : Item := ⟨"b", "", none, none, 3, false⟩

/-- Sample group holding the running and the idle item. -/
def sampleTickGroup : GroupList := ⟨"g", ⟨none, [sampleRunningItem, sampleIdleItem]⟩⟩

/-- Session with one running and one not-started item, for tick theorems. -/
def sampleTickApp : App := ⟨"t", ⟨none, [sampleTickGroup]⟩, none, Dialog.default⟩

/-- Group named g with one default item, selected. -/
def sampleEditGroup : GroupList := ⟨"g", ⟨some 0, [Item.default]⟩⟩

/-- Session with the dialog open in Edit mode over a selected item. -/
def sampleEditApp : App :=
  ⟨"t", ⟨some 0, [sampleEditGroup]⟩, some 0,
    ⟨⟨"T", "D", none, none, 0, false⟩, .titel, .edit⟩⟩

/-- Group with an empty, unselected item list. -/
def emptyGroup : GroupList := ⟨"", ⟨none, []⟩⟩

/-- Session with the dialog open in CreatingNew mode while drilled into
group 0 (reachable from a fresh App). -/
def sampleNewDialogApp : App :=
  ⟨"t", ⟨some 0, [emptyGroup]⟩, some 0, ⟨Item.default, .titel, .new⟩⟩

/-- Key sequence reaching sampleNewDialogApp from a fresh App: create a
group, select it, drill in, open the new-item dialog. -/
def newDialogEvents : List (KeyCode × KeyModifiers × Nat) :=
  [(.char 'n', .ctrl, 0), (.enter, .nomod, 0), (.down, .nomod, 0), (.right, .nomod, 0),
   (.char 'n', .ctrl, 0)]

/-! ### Helper lemmas -/

theorem modifyAt_length (xs : List α) (i : Nat) (f : α → α) :
    (modifyAt xs i f).length = xs.length := by
  induction xs generalizing i with
  | nil => rfl
  | cons x xs ih =>
    cases i with
    | zero => rfl
    | succ i => simp [modifyAt, ih]

theorem modifyAt_get?_self (xs : List α) (i : Nat) (f : α → α) :
    (modifyAt xs i f).get? i = (xs.get? i).map f := by
  induction xs generalizing i with
  | nil => rfl
  | cons x xs ih =>
    cases i with
    | zero => rfl
    | succ i => simpa [modifyAt] using ih i

theorem modifyAt_get?_ne (xs : List α) (i j : Nat) (f : α → α) (h : j ≠ i) :
    (modifyAt xs i f).get? j = xs.get? j := by
  induction xs generalizing i j with
  | nil => rfl
  | cons x xs ih =>
    cases i with
    | zero =>
      cases j with
      | zero => exact absurd rfl h
      | succ j => rfl
    | succ i =>
      cases j with
      | zero => rfl
      | succ j => simpa [modifyAt] using ih i j (by omega)

theorem next_selected (l : StatefulList α) (i : Nat)
    (h : l.selected = some i) (hi : i < l.items.length) :
    l.next = { l with selected := some ((i + 1) % l.items.length) } := by
  obtain ⟨sel, items⟩ := l
  simp only at h hi
  subst h
  have hne : items.isEmpty = false := by
    cases items with
    | nil => simp at hi
    | cons x xs => rfl
  simp only [StatefulList.next, hne, Bool.false_eq_true, if_false]
  rcases Nat.lt_or_ge i (items.length - 1) with hlt | hge
  · have h1 : ¬ i ≥ items.length - 1 := by omega
    have h2 : (i + 1) % items.length = i + 1 := Nat.mod_eq_of_lt (by omega)
    simp [h1, h2]
  · have h1 : i = items.length - 1 := by omega
    have h2 : (i + 1) % items.length = 0 := by
      have : i + 1 = items.length := by omega
      simp [this]
    simp [h2, hge]

theorem previous_selected (l : StatefulList α) (i : Nat)
    (h : l.selected = some i) (hi : i < l.items.length) :
    l.previous =
      { l with selected := some ((i + (l.items.length - 1)) % l.items.length) } := by
  obtain ⟨sel, items⟩ := l
  simp only at h hi
  subst h
  have hne : items.isEmpty = false := by
    cases items with
    | nil => simp at hi
    | cons x xs => rfl
  simp only [StatefulList.previous, hne, Bool.false_eq_true, if_false]
  rcases Nat.eq_zero_or_pos i with h0 | h0
  · subst h0
    have h2 : (items.length - 1) % items.length = items.length - 1 :=
      Nat.mod_eq_of_lt (by omega)
    simp [h2]
  · have h1 : i ≠ 0 := by omega
    have h2 : (i + (items.length - 1)) % items.length = i - 1 := by
      have he : i + (items.length - 1) = (i - 1) + 1 * items.length := by omega
      rw [he, Nat.add_mul_mod_self_right]
      exact Nat.mod_eq_of_lt (by omega)
    simp [h1, h2]

theorem next_iterate (l : StatefulList α) (i : Nat)
    (h : l.selected = some i) (hi : i < l.items.length) (k : Nat) :
    (@StatefulList.next α)^[k] l =
      { l with selected := some ((i + k) % l.items.length) } := by
  induction k with
  | zero => simp [Nat.mod_eq_of_lt hi, ← h]
  | succ k ih =>
    rw [Function.iterate_succ_apply', ih]
    have hlen : ((i + k) % l.items.length) < l.items.length :=
      Nat.mod_lt _ (by omega)
    rw [next_selected ({ l with selected := some ((i + k) % l.items.length) })
      ((i + k) % l.items.length) rfl hlen]
    simp [Nat.mod_add_mod, Nat.add_assoc]

theorem previous_iterate (l : StatefulList α) (i : Nat)
    (h : l.selected = some i) (hi : i < l.items.length) (k : Nat) :
    (@StatefulList.previous α)^[k] l =
      { l with selected := some ((i + k * (l.items.length - 1)) % l.items.length) } := by
  induction k with
  | zero => simp [Nat.mod_eq_of_lt hi, ← h]
  | succ k ih =>
    rw [Function.iterate_succ_apply', ih]
    have hlen : ((i + k * (l.items.length - 1)) % l.items.length) < l.items.length :=
      Nat.mod_lt _ (by omega)
    rw [previous_selected
      ({ l with selected := some ((i + k * (l.items.length - 1)) % l.items.length) })
      ((i + k * (l.items.length - 1)) % l.items.length) rfl hlen]
    have harith : i + k * (l.items.length - 1) + (l.items.length - 1) =
        i + (k + 1) * (l.items.length - 1) := by ring
    simp [Nat.mod_add_mod, harith]

theorem get?_set_self (xs : List α) (i : Nat) (a : α) (h : i < xs.length) :
    (xs.set i a).get? i = some a := by
  induction xs generalizing i with
  | nil => simp at h
  | cons x xs ih =>
    cases i with
    | zero => rfl
    | succ i =>
      have h' : i < xs.length := by simpa using h
      simpa [List.set] using ih i h'

theorem get?_set_of_ne (xs : List α) (i j : Nat) (a : α) (h : j ≠ i) :
    (xs.set i a).get? j = xs.get? j := by
  induction xs generalizing i j with
  | nil => rfl
  | cons x xs ih =>
    cases i with
    | zero =>
      cases j with
      | zero => exact absurd rfl h
      | succ j => rfl
    | succ i =>
      cases j with
      | zero => rfl
      | succ j => simpa [List.set] using ih i j (by omega)

theorem get?_eq_some_get (xs : List α) (i : Nat) (h : i < xs.length) :
    xs.get? i = some (xs.get ⟨i, h⟩) := by
  induction xs generalizing i with
  | nil => simp at h
  | cons x xs ih =>
    cases i with
    | zero => rfl
    | succ i =>
      have h' : i < xs.length := by simpa using h
      simp [ih i h']

theorem vecSwap_spec (xs : List α) (i j : Nat) (hi : i < xs.length) (hj : j < xs.length) :
    ∃ ys, vecSwap xs i j = some ys ∧ ys.length = xs.length ∧
      ys.get? i = xs.get? j ∧ ys.get? j = xs.get? i ∧
      ∀ k, k ≠ i → k ≠ j → ys.get? k = xs.get? k := by
  refine ⟨(xs.set i (xs.get ⟨j, hj⟩)).set j (xs.get ⟨i, hi⟩), ?_, by simp, ?_, ?_, ?_⟩
  · simp [vecSwap, hi, hj]
  · by_cases hij : i = j
    · subst hij
      rw [get?_set_self _ _ _ (by simpa using hi), get?_eq_some_get _ _ hi]
    · rw [get?_set_of_ne _ _ _ _ (by omega), get?_set_self _ _ _ hi,
        get?_eq_some_get _ _ hj]
  · rw [get?_set_self _ _ _ (by simpa using hj), get?_eq_some_get _ _ hi]
  · intro k hki hkj
    rw [get?_set_of_ne _ _ _ _ (by omega), get?_set_of_ne _ _ _ _ (by omega)]

theorem next_eq (l : StatefulList α) (i : Nat)
    (h : l.selected = some i) (hi : i < l.items.length) :
    l.next = { l with selected := some (if i = l.items.length - 1 then 0 else i + 1) } := by
  rw [next_selected l i h hi]
  by_cases he : i = l.items.length - 1
  · subst he
    have : (l.items.length - 1 + 1) % l.items.length = 0 := by
      have h1 : l.items.length - 1 + 1 = l.items.length := by omega
      simp [h1]
    simp [this]
  · have : (i + 1) % l.items.length = i + 1 := Nat.mod_eq_of_lt (by omega)
    simp [this, he]

theorem previous_eq (l : StatefulList α) (i : Nat)
    (h : l.selected = some i) (hi : i < l.items.length) :
    l.previous = { l with selected := some (if i = 0 then l.items.length - 1 else i - 1) } := by
  rw [previous_selected l i h hi]
  by_cases h0 : i = 0
  · subst h0
    have : (0 + (l.items.length - 1)) % l.items.length = l.items.length - 1 := by
      rw [Nat.zero_add]
      exact Nat.mod_eq_of_lt (by omega)
    simp [this]
  · have : (i + (l.items.length - 1)) % l.items.length = i - 1 := by
      have he : i + (l.items.length - 1) = (i - 1) + 1 * l.items.length := by omega
      rw [he, Nat.add_mul_mod_self_right]
      exact Nat.mod_eq_of_lt (by omega)
    simp [this, h0]

theorem move_selected_spec (l : StatefulList α) (i t : Nat) (d : ListDirection)
    (h : l.selected = some i) (hi : i < l.items.length)
    (ht : t = (match d with
      | .down => if i = 0 then l.items.length - 1 else i - 1
      | .up => if i = l.items.length - 1 then 0 else i + 1)) :
    ∃ l', l.move_selected_item d = some l' ∧ l'.selected = some t ∧
      l'.items.length = l.items.length ∧
      l'.items.get? t = l.items.get? i ∧
      l'.items.get? i = l.items.get? t ∧
      ∀ j, j ≠ i → j ≠ t → l'.items.get? j = l.items.get? j := by
  have hlen0 : l.items.length ≠ 0 := by omega
  have htlt : t < l.items.length := by
    cases d <;> simp only at ht <;> subst ht <;> split <;> omega
  obtain ⟨ys, hsw, hyslen, hgi, hgt, hfr⟩ := vecSwap_spec l.items i t hi htlt
  have hiys : i < ys.length := by omega
  cases d with
  | down =>
    simp only at ht
    have harg :
        (if i = 0 then (if l.items.length = 0 then none else some (l.items.length - 1))
         else some (i - 1)) = some t := by
      by_cases h0 : i = 0
      · rw [if_pos h0, if_neg hlen0, ht, if_pos h0]
      · rw [if_neg h0, ht, if_neg h0]
    have hrun : l.move_selected_item .down =
        some (StatefulList.previous { l with items := ys }) := by
      simp only [StatefulList.move_selected_item, h]
      rw [harg, Option.some_bind, hsw]
      rfl
    have hkey := previous_eq { l with items := ys } i h hiys
    refine ⟨StatefulList.previous { l with items := ys }, hrun, ?_, ?_, ?_, ?_, ?_⟩
    · rw [hkey]
      dsimp only
      rw [hyslen, ht]
    · rw [hkey]
      dsimp only
      exact hyslen
    · rw [hkey]
      dsimp only
      exact hgt
    · rw [hkey]
      dsimp only
      exact hgi
    · intro j hji hjt
      rw [hkey]
      dsimp only
      exact hfr j hji hjt
  | up =>
    simp only at ht
    have harg :
        (if l.items.length = 0 then none
         else some (if i = l.items.length - 1 then 0 else i + 1)) = some t := by
      rw [if_neg hlen0, ht]
    have hrun : l.move_selected_item .up =
        some (StatefulList.next { l with items := ys }) := by
      simp only [StatefulList.move_selected_item, h]
      rw [harg, Option.some_bind, hsw]
      rfl
    have hkey := next_eq { l with items := ys } i h hiys
    refine ⟨StatefulList.next { l with items := ys }, hrun, ?_, ?_, ?_, ?_, ?_⟩
    · rw [hkey]
      dsimp only
      rw [hyslen, ht]
    · rw [hkey]
      dsimp only
      exact hyslen
    · rw [hkey]
      dsimp only
      exact hgt
    · rw [hkey]
      dsimp only
      exact hgi
    · intro j hji hjt
      rw [hkey]
      dsimp only
      exact hfr j hji hjt

theorem get?_of_map (f : α → β) (xs : List α) (n : Nat) :
    (xs.map f).get? n = (xs.get? n).map f := by
  induction xs generalizing n with
  | nil => rfl
  | cons x xs ih =>
    cases n with
    | zero => rfl
    | succ n => simp [ih n]

/-- C6: for every list with a valid selected index, move_selected_item
swaps the selected element with its wraparound neighbor in the given
direction (index 0 moved down swaps with the last index, the last index
moved up swaps with index 0) and the cursor follows the moved element;
on a 2-element list this always swaps the two elements and leaves the
cursor on the moved element's new position. -/
theorem c6_move_selected_swaps_with_wraparound {α : Type} (l : StatefulList α) (i : Nat)
    (d : ListDirection) (h : l.selected = some i) (hi : i < l.items.length) :
    ∃ l' t, l.move_selected_item d = some l' ∧
      t = (match d with
        | .down => if i = 0 then l.items.length - 1 else i - 1
        | .up => if i = l.items.length - 1 then 0 else i + 1) ∧
      l'.selected = some t ∧
      l'.items.length = l.items.length ∧
      l'.items.get? t = l.items.get? i ∧
      l'.items.get? i = l.items.get? t ∧
      ∀ j, j ≠ i → j ≠ t → l'.items.get? j = l.items.get? j := by
  obtain ⟨l', h1, h2, h3, h4, h5, h6⟩ := move_selected_spec l i _ d h hi rfl
  exact ⟨l', _, h1, rfl, h2, h3, h4, h5, h6⟩

/-- Witness for C6 at the 2-element list ⟨some 0, [1, 2]⟩ moved down:
the hypotheses hold and the characterization follows by applying the
theorem. -/
theorem c6_witness :
    sampleList.selected = some 0 ∧ 0 < sampleList.items.length ∧
    ∃ l' t, sampleList.move_selected_item .down = some l' ∧
      t = (match ListDirection.down with
        | .down => if 0 = 0 then sampleList.items.length - 1 else 0 - 1
        | .up => if 0 = sampleList.items.length - 1 then 0 else 0 + 1) ∧
      l'.selected = some t ∧
      l'.items.length = sampleList.items.length ∧
      l'.items.get? t = sampleList.items.get? 0 ∧
      l'.items.get? 0 = sampleList.items.get? t ∧
      ∀ j, j ≠ 0 → j ≠ t → l'.items.get? j = sampleList.items.get? j :=
  ⟨rfl, by decide,
    c6_move_selected_swaps_with_wraparound sampleList 0 .down rfl (by decide)⟩

/-- C7: on a non-empty list with a valid selected index, n applications of
next (or previous) return the selection to its start; next and previous
are no-ops on an empty list, select index 0 when nothing is selected, and
otherwise step by one with wraparound. -/
theorem c7_navigation_cycle_and_wraparound {α : Type} :
    (∀ (l : StatefulList α) (i : Nat), l.selected = some i → i < l.items.length →
      ((@StatefulList.next α)^[l.items.length] l).selected = some i ∧
      ((@StatefulList.previous α)^[l.items.length] l).selected = some i) ∧
    (∀ l : StatefulList α, l.items = [] → l.next = l ∧ l.previous = l) ∧
    (∀ l : StatefulList α, l.items ≠ [] → l.selected = none →
      l.next.selected = some 0 ∧ l.previous.selected = some 0) ∧
    (∀ (l : StatefulList α) (i : Nat), l.selected = some i → i < l.items.length →
      l.next.selected = some (if i = l.items.length - 1 then 0 else i + 1) ∧
      l.previous.selected = some (if i = 0 then l.items.length - 1 else i - 1)) := by
  refine ⟨?_, ?_, ?_, ?_⟩
  · intro l i h hi
    constructor
    · rw [next_iterate l i h hi l.items.length]
      dsimp only
      rw [Nat.add_mod_right, Nat.mod_eq_of_lt hi]
    · rw [previous_iterate l i h hi l.items.length]
      dsimp only
      rw [Nat.add_mul_mod_self_left, Nat.mod_eq_of_lt hi]
  · intro l hnil
    have hemp : l.items.isEmpty = true := by simp [hnil]
    constructor <;> simp [StatefulList.next, StatefulList.previous, hemp]
  · intro l hne hnone
    have hemp : l.items.isEmpty = false := by
      cases hl : l.items with
      | nil => exact absurd hl hne
      | cons x xs => simp [hl]
    constructor <;> simp [StatefulList.next, StatefulList.previous, hemp, hnone]
  · intro l i h hi
    constructor
    · rw [next_eq l i h hi]
    · rw [previous_eq l i h hi]

/-- Witness for C7 at the 2-element list ⟨some 0, [1, 2]⟩: two steps of
next or previous return the selection to index 0, and a single step moves
to index 1 both ways. -/
theorem c7_witness :
    sampleList.selected = some 0 ∧ 0 < sampleList.items.length ∧
    ((@StatefulList.next Nat)^[sampleList.items.length] sampleList).selected = some 0 ∧
    ((@StatefulList.previous Nat)^[sampleList.items.length] sampleList).selected = some 0 ∧
    sampleList.next.selected = some (if 0 = sampleList.items.length - 1 then 0 else 0 + 1) ∧
    sampleList.previous.selected = some (if 0 = 0 then sampleList.items.length - 1 else 0 - 1) := by
  have h1 := (@c7_navigation_cycle_and_wraparound Nat).1 sampleList 0 rfl (by decide)
  have h2 := (@c7_navigation_cycle_and_wraparound Nat).2.2.2 sampleList 0 rfl (by decide)
  exact ⟨rfl, by decide, h1.1, h1.2, h2.1, h2.2⟩

/-- C5: a tick of delta milliseconds adds exactly delta to the duration of
every item with started_at set, ended_at unset and paused false, leaves
every item in any other state unchanged, and changes no other field of any
item, group or session component; being universally quantified over the
session, this applies at each tick of any sequence of ticks. -/
theorem c5_tick_accumulation (a : App) (delta : Int) (g i : Nat) (gl : GroupList) (it : Item)
    (hg : a.group_list.items.get? g = some gl)
    (hi : gl.list.items.get? i = some it) :
    (∃ gl', (a.add_time delta).group_list.items.get? g = some gl' ∧
      gl'.name = gl.name ∧
      gl'.list.selected = gl.list.selected ∧
      gl'.list.items.length = gl.list.items.length ∧
      gl'.list.items.get? i = some
        (if it.start_at.isSome && it.end_at.isNone && !it.paused then
          { it with duration := it.duration + delta }
        else it)) ∧
    (a.add_time delta).group_list.selected = a.group_list.selected ∧
    (a.add_time delta).group_list.items.length = a.group_list.items.length ∧
    (a.add_time delta).name = a.name ∧
    (a.add_time delta).active_list = a.active_list ∧
    (a.add_time delta).dialog = a.dialog := by
  refine ⟨⟨{ gl with list := { gl.list with items := gl.list.items.map (fun item =>
      if item.start_at.isSome && item.end_at.isNone && !item.paused then
        { item with duration := item.duration + delta }
      else item) } }, ?_, rfl, rfl, by simp, ?_⟩, rfl, by simp [App.add_time], rfl, rfl, rfl⟩
  · simp only [App.add_time]
    rw [get?_of_map, hg]
    rfl
  · dsimp only
    rw [get?_of_map, hi]
    rfl

/-- Witness for C5 at a session with one running item (index 0) and one
not-started item (index 1), ticked by 1000 ms. -/
theorem c5_witness :
    sampleTickApp.group_list.items.get? 0 = some sampleTickGroup ∧
    sampleTickGroup.list.items.get? 0 = some sampleRunningItem ∧
    ((∃ gl', (sampleTickApp.add_time 1000).group_list.items.get? 0 = some gl' ∧
      gl'.name = sampleTickGroup.name ∧
      gl'.list.selected = sampleTickGroup.list.selected ∧
      gl'.list.items.length = sampleTickGroup.list.items.length ∧
      gl'.list.items.get? 0 = some
        (if sampleRunningItem.start_at.isSome && sampleRunningItem.end_at.isNone &&
            !sampleRunningItem.paused then
          { sampleRunningItem with duration := sampleRunningItem.duration + 1000 }
        else sampleRunningItem)) ∧
    (sampleTickApp.add_time 1000).group_list.selected = sampleTickApp.group_list.selected ∧
    (sampleTickApp.add_time 1000).group_list.items.length =
      sampleTickApp.group_list.items.length ∧
    (sampleTickApp.add_time 1000).name = sampleTickApp.name ∧
    (sampleTickApp.add_time 1000).active_list = sampleTickApp.active_list ∧
    (sampleTickApp.add_time 1000).dialog = sampleTickApp.dialog) :=
  ⟨rfl, rfl, c5_tick_accumulation sampleTickApp 1000 0 0 sampleTickGroup sampleRunningItem rfl rfl⟩

theorem selected_item_spec (a : App) (g i : Nat) (h : a.selected_item = some (g, i)) :
    a.active_list = some g ∧ ∃ gl, a.group_list.items.get? g = some gl ∧
      gl.list.selected = some i ∧ ∃ it, gl.list.items.get? i = some it := by
  unfold App.selected_item at h
  cases hact : a.active_list with
  | none => rw [hact] at h; exact absurd h (by simp)
  | some g0 =>
    rw [hact] at h
    dsimp only at h
    cases hgl : a.group_list.items.get? g0 with
    | none => rw [hgl] at h; exact absurd h (by simp)
    | some gl =>
      rw [hgl] at h
      dsimp only at h
      cases hs : gl.list.selected with
      | none => rw [hs] at h; exact absurd h (by simp)
      | some i0 =>
        rw [hs] at h
        dsimp only at h
        cases hit : gl.list.items.get? i0 with
        | none => rw [hit] at h; simp at h
        | some it =>
          rw [hit] at h
          simp at h
          obtain ⟨hg0, hi0⟩ := h
          subst hg0; subst hi0
          exact ⟨rfl, gl, hgl, hs, it, hit⟩

theorem event_cmd_s (a : App) (now : Nat) (hdlg : a.dialog.displayed = false) :
    a.event (.char 's') .alt now = some (a.update_selected_item (fun item =>
      if item.start_at.isSome then
        { item with start_at := none, end_at := none, duration := 0 }
      else
        { item with start_at := some now })) := by
  unfold App.event
  rw [if_neg (by simp [hdlg])]
  rfl

theorem event_enter_edit (a : App) (m : KeyModifiers) (now : Nat)
    (hmode : a.dialog.state = .edit) :
    a.event .enter m now = some { a.update_selected_item (fun item =>
        { item with title := a.dialog.input.title, desc := a.dialog.input.desc }) with
      dialog := a.dialog.close_dialog } := by
  have hdisp : a.dialog.displayed = true := by simp [Dialog.displayed, hmode]
  have hedit : a.dialog.editing = true := by simp [Dialog.editing, hmode]
  unfold App.event
  rw [if_neg (by simp)]
  cases m <;> simp [App.command, hdisp, hedit]

theorem update_selected_item_spec (a : App) (f : Item → Item) (g i : Nat)
    (gl : GroupList)
    (hsel : a.selected_item = some (g, i))
    (hg : a.group_list.items.get? g = some gl) :
    (a.update_selected_item f).name = a.name ∧
    (a.update_selected_item f).active_list = a.active_list ∧
    (a.update_selected_item f).dialog = a.dialog ∧
    (a.update_selected_item f).group_list.selected = a.group_list.selected ∧
    (a.update_selected_item f).group_list.items.length = a.group_list.items.length ∧
    (a.update_selected_item f).group_list.items.get? g =
      some { gl with list := { gl.list with items := modifyAt gl.list.items i f } } ∧
    ∀ g', g' ≠ g → (a.update_selected_item f).group_list.items.get? g' =
      a.group_list.items.get? g' := by
  unfold App.update_selected_item
  rw [hsel]
  refine ⟨rfl, rfl, rfl, rfl, by simp [modifyAt_length], ?_, ?_⟩
  · dsimp only
    rw [modifyAt_get?_self, hg]
    rfl
  · intro g' hne
    dsimp only
    rw [modifyAt_get?_ne _ _ _ _ hne]

/-- C8: with the dialog closed and an item selected, the toggle-start
command (Alt+s) clears started_at and ended_at and resets the duration to
0 when started_at is set, and otherwise sets started_at to the current
time; all other fields of the item, every other item and group, and the
rest of the session are unchanged. -/
theorem c8_toggle_start (a : App) (g i : Nat) (gl : GroupList) (it : Item) (now : Nat)
    (hdlg : a.dialog.displayed = false)
    (hsel : a.selected_item = some (g, i))
    (hg : a.group_list.items.get? g = some gl)
    (hi : gl.list.items.get? i = some it) :
    ∃ a', a.event (.char 's') .alt now = some a' ∧
      a'.get_item g i = some
        (if it.start_at.isSome then
          { it with start_at := none, end_at := none, duration := 0 }
        else
          { it with start_at := some now }) ∧
      (∀ i', i' ≠ i → a'.get_item g i' = a.get_item g i') ∧
      (∀ g', g' ≠ g → a'.group_list.items.get? g' = a.group_list.items.get? g') ∧
      a'.name = a.name ∧ a'.active_list = a.active_list ∧ a'.dialog = a.dialog ∧
      a'.group_list.selected = a.group_list.selected ∧
      a'.group_list.items.length = a.group_list.items.length := by
  obtain ⟨h1, h2, h3, h4, h5, h6, h7⟩ := update_selected_item_spec a (fun item =>
    if item.start_at.isSome then
      { item with start_at := none, end_at := none, duration := 0 }
    else
      { item with start_at := some now }) g i gl hsel hg
  refine ⟨_, event_cmd_s a now hdlg, ?_, ?_, h7, h1, h2, h3, h4, h5⟩
  · unfold App.get_item
    rw [h6]
    dsimp only
    rw [modifyAt_get?_self, hi]
    rfl
  · intro i' hne
    unfold App.get_item
    rw [h6, hg]
    dsimp only
    rw [modifyAt_get?_ne _ _ _ _ hne]

/-- Witness for C8 at a drilled-in session whose single, never-started
item is selected: Alt+s at time 42 sets started_at to 42. -/
theorem c8_witness :
    sampleDrilledApp.dialog.displayed = false ∧
    sampleDrilledApp.selected_item = some (0, 0) ∧
    sampleDrilledApp.group_list.items.get? 0 = some sampleDrilledGroup ∧
    sampleDrilledGroup.list.items.get? 0 = some Item.default ∧
    ∃ a', sampleDrilledApp.event (.char 's') .alt 42 = some a' ∧
      a'.get_item 0 0 = some
        (if Item.default.start_at.isSome then
          { Item.default with start_at := none, end_at := none, duration := 0 }
        else
          { Item.default with start_at := some 42 }) ∧
      (∀ i', i' ≠ 0 → a'.get_item 0 i' = sampleDrilledApp.get_item 0 i') ∧
      (∀ g', g' ≠ 0 →
        a'.group_list.items.get? g' = sampleDrilledApp.group_list.items.get? g') ∧
      a'.name = sampleDrilledApp.name ∧ a'.active_list = sampleDrilledApp.active_list ∧
      a'.dialog = sampleDrilledApp.dialog ∧
      a'.group_list.selected = sampleDrilledApp.group_list.selected ∧
      a'.group_list.items.length = sampleDrilledApp.group_list.items.length :=
  ⟨rfl, rfl, rfl, rfl,
    c8_toggle_start sampleDrilledApp 0 0 sampleDrilledGroup Item.default 42 rfl rfl rfl rfl⟩

/-- C9: committing the dialog in Editing mode overwrites only the selected
item's title and description with the dialog scratch values; the item's
timestamps, duration and paused flag, every other item and group, and the
selections are unchanged, and the dialog is reset to its default closed
state. -/
theorem c9_edit_commit (a : App) (g i : Nat) (gl : GroupList) (it : Item)
    (m : KeyModifiers) (now : Nat)
    (hmode : a.dialog.state = .edit)
    (hsel : a.selected_item = some (g, i))
    (hg : a.group_list.items.get? g = some gl)
    (hi : gl.list.items.get? i = some it) :
    ∃ a', a.event .enter m now = some a' ∧
      a'.get_item g i = some
        { it with title := a.dialog.input.title, desc := a.dialog.input.desc } ∧
      (∀ i', i' ≠ i → a'.get_item g i' = a.get_item g i') ∧
      (∀ g', g' ≠ g → a'.group_list.items.get? g' = a.group_list.items.get? g') ∧
      (∃ gl', a'.group_list.items.get? g = some gl' ∧ gl'.name = gl.name ∧
        gl'.list.selected = gl.list.selected ∧
        gl'.list.items.length = gl.list.items.length) ∧
      a'.name = a.name ∧ a'.active_list = a.active_list ∧
      a'.group_list.selected = a.group_list.selected ∧
      a'.group_list.items.length = a.group_list.items.length ∧
      a'.dialog = Dialog.default := by
  obtain ⟨h1, h2, h3, h4, h5, h6, h7⟩ := update_selected_item_spec a (fun item =>
    { item with title := a.dialog.input.title, desc := a.dialog.input.desc }) g i gl hsel hg
  refine ⟨_, event_enter_edit a m now hmode, ?_, ?_, ?_, ?_, h1, h2, h4, h5, rfl⟩
  · unfold App.get_item
    dsimp only
    rw [h6]
    dsimp only
    rw [modifyAt_get?_self, hi]
    rfl
  · intro i' hne
    unfold App.get_item
    dsimp only
    rw [h6, hg]
    dsimp only
    rw [modifyAt_get?_ne _ _ _ _ hne]
  · intro g' hne
    dsimp only
    exact h7 g' hne
  · exact ⟨{ gl with list := { gl.list with items := modifyAt gl.list.items i (fun item =>
      { item with title := a.dialog.input.title, desc := a.dialog.input.desc }) } },
      by dsimp only; rw [h6], rfl, rfl, by simp [modifyAt_length]⟩

/-- Witness for C9 at a session whose dialog is editing the selected
default item with scratch title T and description D. -/
theorem c9_witness :
    sampleEditApp.dialog.state = DialogState.edit ∧
    sampleEditApp.selected_item = some (0, 0) ∧
    sampleEditApp.group_list.items.get? 0 = some sampleEditGroup ∧
    sampleEditGroup.list.items.get? 0 = some Item.default ∧
    ∃ a', sampleEditApp.event .enter .nomod 0 = some a' ∧
      a'.get_item 0 0 = some
        ⟨sampleEditApp.dialog.input.title, sampleEditApp.dialog.input.desc,
          none, none, 0, false⟩ ∧
      (∀ i', i' ≠ 0 → a'.get_item 0 i' = sampleEditApp.get_item 0 i') ∧
      (∀ g', g' ≠ 0 →
        a'.group_list.items.get? g' = sampleEditApp.group_list.items.get? g') ∧
      (∃ gl', a'.group_list.items.get? 0 = some gl' ∧ gl'.name = sampleEditGroup.name ∧
        gl'.list.selected = sampleEditGroup.list.selected ∧
        gl'.list.items.length = sampleEditGroup.list.items.length) ∧
      a'.name = sampleEditApp.name ∧ a'.active_list = sampleEditApp.active_list ∧
      a'.group_list.selected = sampleEditApp.group_list.selected ∧
      a'.group_list.items.length = sampleEditApp.group_list.items.length ∧
      a'.dialog = Dialog.default :=
  ⟨rfl, rfl, rfl, rfl,
    c9_edit_commit sampleEditApp 0 0 sampleEditGroup Item.default .nomod 0 rfl rfl rfl rfl⟩

/-- C1 (refuting evaluation): deleting the selected item of the drilled-in
group removes the item (the list length drops to 0) but leaves that item
list's selection at some 0 instead of clearing it to none. -/
theorem c1_delete_leaves_item_selection :
    (sampleDrilledApp.event (.char 'd') .ctrl 0).map
        (fun a' => (a'.group_list.items.get? 0).map
          (fun gl => (gl.list.items.length, gl.list.selected))) =
      some (some (0, some 0)) := by
  decide

/-- C2 (refuting evaluation): starting from the initial empty session,
the listed commands (create a group, select it, drill in, create an item,
select it, delete it) reach a state whose drilled-in item list has
selected = some 0 while holding 0 items, violating the selection bounds
invariant. -/
theorem c2_dangling_selection_reachable :
    (App.runEvents (App.new "Todo-Timer") deleteLastItemEvents).map
        (fun a => (a.group_list.items.get? 0).map
          (fun gl => (gl.list.selected, gl.list.items.length))) =
      some (some (some 0, 0)) := by
  decide

/-- C3 (refuting evaluation): after deleting the only item, the reorder
command Ctrl+Up reaches move_selected_item with a dangling selection on an
empty list and panics (items.len() - 1 underflow / out-of-bounds swap),
modelled by the event run returning none. -/
theorem c3_reorder_after_delete_panics :
    App.runEvents (App.new "Todo-Timer")
      (deleteLastItemEvents ++ [(.up, .ctrl, 0)]) = none := by
  decide

/-- C4 counterexample: when the state file is present but its contents
fail to deserialize, start-up panics on the unwrap instead of yielding the
fresh empty Session. -/
theorem c4_counterexample_malformed_file_panics :
    loadApp (some "not a valid document") (fun _ => none) = LoadResult.panic ∧
    LoadResult.panic ≠ LoadResult.ok (App.new "Todo-Timer") := by
  decide

/-- C4 amended: start-up substitutes the fresh empty Session only when
reading the file fails (missing file); when the file is read but
deserialization fails, start-up panics rather than falling back. -/
theorem c4_load_fallback (parse : String → Option App) (s : String)
    (hp : parse s = none) :
    loadApp none parse = LoadResult.ok (App.new "Todo-Timer") ∧
    loadApp (some s) parse = LoadResult.panic ∧
    (App.new "Todo-Timer").group_list.items = [] ∧
    (App.new "Todo-Timer").group_list.selected = none ∧
    (App.new "Todo-Timer").active_list = none ∧
    (App.new "Todo-Timer").dialog = Dialog.default := by
  refine ⟨rfl, ?_, rfl, rfl, rfl, rfl⟩
  simp [loadApp, hp]

/-- Witness for C4's amended statement with an always-failing parser. -/
theorem c4_witness :
    ((fun _ : String => (none : Option App)) "x" = none) ∧
    loadApp none (fun _ : String => (none : Option App)) =
      LoadResult.ok (App.new "Todo-Timer") ∧
    loadApp (some "x") (fun _ : String => (none : Option App)) = LoadResult.panic ∧
    (App.new "Todo-Timer").group_list.items = [] ∧
    (App.new "Todo-Timer").group_list.selected = none ∧
    (App.new "Todo-Timer").active_list = none ∧
    (App.new "Todo-Timer").dialog = Dialog.default :=
  ⟨rfl, c4_load_fallback (fun _ => none) "x" rfl⟩

theorem update_selected_item_dialog (a : App) (f : Item → Item) :
    (a.update_selected_item f).dialog = a.dialog := by
  unfold App.update_selected_item
  cases a.selected_item with
  | none => rfl
  | some p => cases p; rfl

theorem command_dialog (a : App) (k : KeyCode) (m : KeyModifiers) (now : Nat) (a' : App)
    (h : a.command k m now = some a') :
    a'.dialog = a.dialog ∨ a'.dialog = Dialog.default ∨
    (a.dialog.displayed = false ∧ a'.dialog = { a.dialog with state := .new }) ∨
    (∃ it, a'.dialog = { a.dialog with input := it, state := .edit }) := by
  unfold App.command at h
  split at h
  · -- char 'n', ctrl
    injection h with h
    by_cases hd : a.dialog.displayed
    · rw [if_pos hd] at h; subst h; left; rfl
    · rw [if_neg hd] at h; subst h
      right; right; left
      exact ⟨by simpa using hd, rfl⟩
  · -- char 'e', ctrl
    injection h with h
    by_cases hd : a.dialog.displayed
    · rw [if_pos hd] at h; subst h; left; rfl
    · rw [if_neg hd] at h
      cases hit : a.get_selected_item with
      | none => rw [hit] at h; subst h; left; rfl
      | some it =>
        rw [hit] at h; subst h
        right; right; right
        exact ⟨it, rfl⟩
  · -- char 'd', ctrl
    split at h
    · split at h
      · exact absurd h (by simp)
      · split at h
        · split at h
          · injection h with h; subst h; left; rfl
          · exact absurd h (by simp)
        · injection h with h; subst h; left; rfl
    · split at h
      · split at h
        · injection h with h; subst h; left; rfl
        · exact absurd h (by simp)
      · injection h with h; subst h; left; rfl
  · -- char 's', alt
    injection h with h; subst h
    left; exact update_selected_item_dialog a _
  · -- char 'd', alt
    injection h with h; subst h
    left; exact update_selected_item_dialog a _
  · -- char 'p', alt
    injection h with h; subst h
    left; exact update_selected_item_dialog a _
  · -- enter
    split at h
    · split at h
      · injection h with h; subst h; right; left; rfl
      · split at h
        · split at h
          · exact absurd h (by simp)
          · injection h with h; subst h; right; left; rfl
        · injection h with h; subst h; right; left; rfl
    · injection h with h; subst h; right; left; rfl
  · -- up, ctrl
    split at h
    · split at h
      · exact absurd h (by simp)
      · rcases Option.map_eq_some'.mp h with ⟨l, -, hl⟩
        subst hl; left; rfl
    · rcases Option.map_eq_some'.mp h with ⟨g, -, hg⟩
      subst hg; left; rfl
  · -- down, ctrl
    split at h
    · split at h
      · exact absurd h (by simp)
      · rcases Option.map_eq_some'.mp h with ⟨l, -, hl⟩
        subst hl; left; rfl
    · rcases Option.map_eq_some'.mp h with ⟨g, -, hg⟩
      subst hg; left; rfl
  · -- up, other modifiers
    split at h
    · split at h
      · exact absurd h (by simp)
      · injection h with h; subst h; left; rfl
    · injection h with h; subst h; left; rfl
  · -- down, other modifiers
    split at h
    · split at h
      · exact absurd h (by simp)
      · injection h with h; subst h; left; rfl
    · injection h with h; subst h; left; rfl
  · -- right
    injection h with h
    by_cases hn : a.active_list.isNone
    · rw [if_pos hn] at h; subst h; left; rfl
    · rw [if_neg hn] at h; subst h; left; rfl
  · -- left
    split at h
    · split at h
      · exact absurd h (by simp)
      · injection h with h; subst h; left; rfl
    · injection h with h; subst h; left; rfl
  · -- wildcard
    injection h with h; subst h; left; rfl

theorem displayed_false_iff (d : Dialog) : d.displayed = false ↔ d.state = .hide := by
  cases hs : d.state <;> simp [Dialog.displayed, hs]

theorem process_input_dialogInv (a : App) (k : KeyCode) (m : KeyModifiers)
    (hdisp : a.dialog.displayed = true) (hinv : dialogInv a) :
    dialogInv { a with dialog := a.dialog.process_input k m } := by
  have hnothide : ¬ a.dialog.state = .hide := by
    intro hh
    rw [(displayed_false_iff a.dialog).mpr hh] at hdisp
    exact absurd hdisp (by simp)
  cases k with
  | esc =>
    refine ⟨fun _ => rfl, fun hh => ?_⟩
    exact absurd hh (by simp [Dialog.process_input, Dialog.close_dialog, Dialog.default])
  | tab =>
    cases hsi : a.dialog.selected_input <;>
      refine ⟨fun hh => ?_, fun hh => ?_⟩ <;>
      simp only [Dialog.process_input, hsi] at hh <;>
      first
      | exact absurd hh hnothide
      | (simp only [Dialog.process_input, hsi]; exact hinv.2 hh)
  | char c =>
    cases hsi : a.dialog.selected_input <;>
      refine ⟨fun hh => ?_, fun hh => ?_⟩ <;>
      simp only [Dialog.process_input, hsi] at hh <;>
      first
      | exact absurd hh hnothide
      | (simp only [Dialog.process_input, hsi]; exact hinv.2 hh)
  | backspace =>
    cases hsi : a.dialog.selected_input <;>
      refine ⟨fun hh => ?_, fun hh => ?_⟩ <;>
      simp only [Dialog.process_input, hsi] at hh <;>
      first
      | exact absurd hh hnothide
      | (simp only [Dialog.process_input, hsi]; exact hinv.2 hh)
  | enter => exact hinv
  | up => exact hinv
  | down => exact hinv
  | left => exact hinv
  | right => exact hinv
  | other => exact hinv

theorem dialogInv_step (a a' : App) (k : KeyCode) (m : KeyModifiers) (now : Nat)
    (hinv : dialogInv a) (h : a.event k m now = some a') : dialogInv a' := by
  unfold App.event at h
  by_cases hg : (a.dialog.displayed : Prop) ∧ ¬ k = KeyCode.enter
  · rw [if_pos hg] at h
    injection h with h
    subst h
    exact process_input_dialogInv a k m hg.1 hinv
  · rw [if_neg hg] at h
    rcases command_dialog a k m now a' h with h1 | h1 | ⟨hd, h1⟩ | ⟨it, h1⟩
    · unfold dialogInv at hinv ⊢
      rw [h1]
      exact hinv
    · unfold dialogInv
      rw [h1]
      exact ⟨fun _ => rfl, fun hh => by simp [Dialog.default] at hh⟩
    · have hhide : a.dialog.state = .hide := (displayed_false_iff a.dialog).mp hd
      have hdef : a.dialog = Dialog.default := hinv.1 hhide
      unfold dialogInv
      rw [h1]
      refine ⟨fun hh => by simp at hh, fun _ => ?_⟩
      rw [hdef]
      exact ⟨rfl, rfl, rfl, rfl⟩
    · unfold dialogInv
      rw [h1]
      exact ⟨fun hh => by simp at hh, fun hh => by simp at hh⟩

theorem dialogInv_tick (a : App) (delta : Int) (hinv : dialogInv a) :
    dialogInv (a.add_time delta) := hinv

theorem reachable_dialogInv (a : App) (h : Reachable a) : dialogInv a := by
  induction h with
  | init name => exact ⟨fun _ => rfl, fun hh => by simp [App.new, Dialog.default] at hh⟩
  | key hr hev ih => exact dialogInv_step _ _ _ _ _ ih hev
  | tick delta hr ih => exact dialogInv_tick _ delta ih

theorem event_enter_new (a : App) (m : KeyModifiers) (now : Nat) (g : Nat) (gl : GroupList)
    (hmode : a.dialog.state = .new) (hact : a.active_list = some g)
    (hg : a.group_list.items.get? g = some gl) :
    a.event .enter m now = some { a.set_list g (gl.list.add a.dialog.input) with
      dialog := a.dialog.close_dialog } := by
  have hdisp : a.dialog.displayed = true := by simp [Dialog.displayed, hmode]
  have hedit : a.dialog.editing = false := by simp [Dialog.editing, hmode]
  have hg' : a.group_list.items[g]? = some gl := by
    rw [← List.get?_eq_getElem?]
    exact hg
  unfold App.event
  rw [if_neg (by simp)]
  cases m <;> simp [App.command, hdisp, hedit, hact, hg']

theorem runEvents_reachable (evs : List (KeyCode × KeyModifiers × Nat)) (a a' : App)
    (hr : Reachable a) (h : a.runEvents evs = some a') : Reachable a' := by
  induction evs generalizing a with
  | nil =>
    unfold App.runEvents at h
    injection h with h
    subst h
    exact hr
  | cons e rest ih =>
    obtain ⟨k, m, now⟩ := e
    unfold App.runEvents at h
    cases hev : a.event k m now with
    | none => rw [hev] at h; exact absurd h (by simp)
    | some b =>
      rw [hev, Option.some_bind] at h
      exact ih b (Reachable.key hr hev) h

/-- C10: in every reachable session whose dialog is in CreatingNew mode
with a group drilled into, committing the dialog appends to that group's
list an item whose started_at and ended_at are unset, whose duration is 0
and whose paused flag is false — only its title and description can differ
from the defaults. -/
theorem c10_new_item_has_default_timing (a : App) (g : Nat) (gl : GroupList)
    (m : KeyModifiers) (now : Nat)
    (hr : Reachable a) (hmode : a.dialog.state = .new)
    (hact : a.active_list = some g)
    (hg : a.group_list.items.get? g = some gl) :
    ∃ a' gl' itm, a.event .enter m now = some a' ∧
      a'.group_list.items.get? g = some gl' ∧
      gl'.list.items = gl.list.items ++ [itm] ∧
      itm.start_at = none ∧ itm.end_at = none ∧ itm.duration = 0 ∧ itm.paused = false := by
  obtain ⟨-, hnew⟩ := reachable_dialogInv a hr
  obtain ⟨h1, h2, h3, h4⟩ := hnew hmode
  refine ⟨{ a.set_list g (gl.list.add a.dialog.input) with dialog := a.dialog.close_dialog },
    { gl with list := gl.list.add a.dialog.input }, a.dialog.input,
    event_enter_new a m now g gl hmode hact hg, ?_, rfl, h1, h2, h3, h4⟩
  show (a.set_list g (gl.list.add a.dialog.input)).group_list.items.get? g = some _
  unfold App.set_list
  dsimp only
  rw [modifyAt_get?_self, hg]
  rfl

/-- Witness for C10 at the reachable session with the new-item dialog
open over a drilled-in empty group. -/
theorem c10_witness :
    Reachable sampleNewDialogApp ∧
    sampleNewDialogApp.dialog.state = DialogState.new ∧
    sampleNewDialogApp.active_list = some 0 ∧
    sampleNewDialogApp.group_list.items.get? 0 = some emptyGroup ∧
    ∃ a' gl' itm, sampleNewDialogApp.event .enter .nomod 0 = some a' ∧
      a'.group_list.items.get? 0 = some gl' ∧
      gl'.list.items = emptyGroup.list.items ++ [itm] ∧
      itm.start_at = none ∧ itm.end_at = none ∧ itm.duration = 0 ∧ itm.paused = false :=
  have hre : Reachable sampleNewDialogApp :=
    runEvents_reachable newDialogEvents
      (App.new "t") sampleNewDialogApp (Reachable.init "t") (by decide)
  ⟨hre, rfl, rfl, rfl,
    c10_new_item_has_default_timing sampleNewDialogApp 0 emptyGroup .nomod 0 hre rfl rfl rfl⟩
